import Mathlib

/-!
Shallow embedding of the ape-punks-avatar GIF compositing pipeline.

The definitions below are direct translations of the TypeScript source:
the layer-order sorting and client z-index logic (`route.ts`,
`CombinedPreview.tsx`), the GIF frame extraction delay handling, the
alpha compositor, the nearest-neighbor resizer, the frame synchronizer
and the encoder parameters.  Machine bytes are modelled as `ℕ` values,
pixel arithmetic as exact rationals.
-/

namespace ApePunks

/-- Boolean test that the first character list is an initial segment of the
second (used to model JS `String.prototype.includes`). -/
def charsStartWith : List Char → List Char → Bool
  | [], _ => true
  | _ :: _, [] => false
  | a :: as, b :: bs => a == b && charsStartWith as bs

/-- Boolean substring occurrence test on character lists. -/
def charsContain (pat : List Char) : List Char → Bool
  | [] => charsStartWith pat []
  | c :: rest => charsStartWith pat (c :: rest) || charsContain pat rest

/-- Model of JS `url.includes(pat)`. -/
def jsIncludes (s pat : String) : Bool := charsContain pat.data s.data

/-- The server route's canonical layer order
(`route.ts`: `const layerOrder = ['background', 'fur', 'face', 'eyes',
'mouth', 'head', 'mask', 'minion']`). -/
def layerOrder : List String :=
  ["background", "fur", "face", "eyes", "mouth", "head", "mask", "minion"]

/-- `getLayerIndex` from the server route's sort comparator: the first index
`i` with `url.includes('/' + layerOrder[i] + '/')`, else `layerOrder.length`. -/
def getLayerIndex (url : String) : ℕ :=
  match layerOrder.findIdx? (fun cat => jsIncludes url ("/" ++ cat ++ "/")) with
  | some i => i
  | none => layerOrder.length

/-- The ordering induced by the route's comparator
`(a, b) => getLayerIndex(a) - getLayerIndex(b)`. -/
def layerLE (a b : String) : Prop := getLayerIndex a ≤ getLayerIndex b

instance : DecidableRel layerLE := fun _ _ => Nat.decLe _ _

instance : IsTotal String layerLE := ⟨fun _ _ => Nat.le_total _ _⟩

instance : IsTrans String layerLE := ⟨fun _ _ _ => Nat.le_trans⟩

/-- The server route's `validUrls.sort(...)` call, modelled as a stable sort
by the comparator key. -/
def sortUrls (urls : List String) : List String := urls.insertionSort layerLE

/-- The client preview's trait order (`CombinedPreview.tsx` `getZIndex`:
`['background', 'fur', 'mouth', 'head', 'mask', 'eyes', 'minion']`). -/
def clientTraitOrder : List String :=
  ["background", "fur", "mouth", "head", "mask", "eyes", "minion"]

/-- The client preview's `getZIndex`: `order.indexOf(traitType)`,
`-1` when absent (JS `indexOf`). -/
def getZIndex (t : String) : Int :=
  match clientTraitOrder.findIdx? (fun x => x == t) with
  | some i => (i : Int)
  | none => -1

example : getLayerIndex "/assets/eyes/14.gif" = 3 := by decide
example : getLayerIndex "/assets/mouth/12.gif" = 4 := by decide
example : getZIndex "eyes" = 5 := by decide
example : getZIndex "mouth" = 2 := by decide
example : getZIndex "face" = -1 := by decide
example : sortUrls ["/assets/mouth/12.gif", "/assets/background/1.gif"] =
    ["/assets/background/1.gif", "/assets/mouth/12.gif"] := by decide

/-- One RGBA pixel: four byte channels stored as naturals. -/
structure RGBA where
  r : ℕ
  g : ℕ
  b : ℕ
  a : ℕ
deriving DecidableEq, Repr

instance : Inhabited RGBA := ⟨⟨0, 0, 0, 0⟩⟩

/-- JS `Math.round` on a rational: round half toward positive infinity. -/
def jsRound (q : ℚ) : ℤ := ⌊q + 1 / 2⌋

/-- Storing an integer into a `Uint8Array` slot (ToUint8: modulo 256). -/
def toU8 (z : ℤ) : ℕ := (z % 256).toNat

/-- Per-pixel body of `compositeImages` (`route.ts` lines 167-205):
source-over alpha blending with the two transparency fast paths, the
overlay-transparent test performed first.  The JS code tests
`overlayA === 0` with `overlayA = overlay[idx+3] / 255`; since `255 ≠ 0`
this is equivalent to the byte test `overlay.a = 0` used here (see
`div255_eq_zero_iff`). -/
def compositePixel (base overlay : RGBA) : RGBA :=
  if overlay.a = 0 then base
  else if base.a = 0 then overlay
  else
    let baseA : ℚ := base.a / 255
    let overlayA : ℚ := overlay.a / 255
    let alpha : ℚ := overlayA + baseA * (1 - overlayA)
    { r := toU8 (jsRound ((overlay.r * overlayA + base.r * baseA * (1 - overlayA)) / alpha))
      g := toU8 (jsRound ((overlay.g * overlayA + base.g * baseA * (1 - overlayA)) / alpha))
      b := toU8 (jsRound ((overlay.b * overlayA + base.b * baseA * (1 - overlayA)) / alpha))
      a := toU8 (jsRound (alpha * 255)) }

/-- The byte test used in `compositePixel` agrees with the JS rational test
`x / 255 === 0`. -/
theorem div255_eq_zero_iff (n : ℕ) : (n : ℚ) / 255 = 0 ↔ n = 0 := by
  rw [div_eq_zero_iff]
  norm_num

/-- `compositeImages(base, overlay, width, height)`: the double loop over
`y < height`, `x < width` applying `compositePixel` at each index. -/
def compositeImages (base overlay : List RGBA) (w h : ℕ) : List RGBA :=
  (List.range (h * w)).map fun i =>
    compositePixel (base.getD i default) (overlay.getD i default)

/-- Per-pixel body of `quantizeTo256Colors` (`route.ts` lines 273-287):
channels floored to multiples of 4, alpha binarized at threshold 64. -/
def quantizePixel (p : RGBA) : RGBA :=
  { r := p.r / 4 * 4
    g := p.g / 4 * 4
    b := p.b / 4 * 4
    a := if p.a > 64 then 255 else 0 }

/-- `quantizeTo256Colors` applied to a pixel buffer. -/
def quantizeTo256Colors (pixels : List RGBA) : List RGBA :=
  pixels.map quantizePixel

/-- `resizeFrame` (`route.ts` lines 460-485): identity on matching
dimensions, otherwise nearest-neighbor sampling with
`srcX = floor(x * srcW / dstW)` clamped to `srcW - 1` (and likewise for
`y`), copying the whole RGBA pixel. -/
def resizeFrame (pixels : List RGBA) (srcW srcH dstW dstH : ℕ) : List RGBA :=
  if srcW = dstW ∧ srcH = dstH then pixels
  else
    (List.range (dstH * dstW)).map fun i =>
      let y := i / dstW
      let x := i % dstW
      let srcX := min (x * srcW / dstW) (srcW - 1)
      let srcY := min (y * srcH / dstH) (srcH - 1)
      pixels.getD (srcY * srcW + srcX) default

example : compositePixel ⟨1, 2, 3, 4⟩ ⟨9, 9, 9, 0⟩ = ⟨1, 2, 3, 4⟩ := by decide
example : compositePixel ⟨0, 0, 0, 0⟩ ⟨9, 9, 9, 4⟩ = ⟨9, 9, 9, 4⟩ := by decide
example : compositePixel ⟨100, 150, 200, 255⟩ ⟨10, 20, 30, 255⟩ = ⟨10, 20, 30, 255⟩ := by
  norm_num [compositePixel, jsRound, toU8]
  decide
example : compositePixel ⟨0, 0, 0, 0⟩ ⟨255, 0, 0, 0⟩ = ⟨0, 0, 0, 0⟩ := by decide
example : compositePixel ⟨100, 150, 200, 255⟩ ⟨10, 20, 30, 51⟩ = ⟨82, 124, 166, 255⟩ := by
  norm_num [compositePixel, jsRound, toU8]
  decide

/-- One decoded frame: a pixel buffer and a display delay in milliseconds. -/
structure Frame where
  pixels : List RGBA
  delay : ℕ
deriving DecidableEq

instance : Inhabited Frame := ⟨⟨[], 0⟩⟩

/-- One loaded asset as pushed by the gifwrap route's second pass: a GIF
with its decoded frames, or a static image wrapped as one frame. -/
structure Asset where
  isGif : Bool
  frames : List Frame
  url : String
deriving DecidableEq

/-- `asset.frameCount` (`frameCount: resizedFrames.length` resp. `1`). -/
def Asset.frameCount (a : Asset) : ℕ := a.frames.length

/-- `extractGifFrames` delay conversion in `route.ts` (lines 146-165):
`const delayMs = (frameInfo.delay || 10) * 10`.  `none` models a missing
field; a stored `0` is falsy in JS. -/
def delayMsRoute (storedDelay : Option ℕ) : ℕ :=
  (if storedDelay.getD 0 = 0 then 10 else storedDelay.getD 0) * 10

/-- `extractGifFrames` delay conversion in `GifGenerator.tsx` (lines
491-520): `(typeof frameInfo.delay === 'number' ? frameInfo.delay : 10) * 10`;
a stored `0` is a number and is used as-is. -/
def delayMsGen (storedDelay : Option ℕ) : ℕ :=
  (match storedDelay with
   | some d => d
   | none => 10) * 10

/-- First pass of the gifwrap route (`route.ts` lines 305-334): `maxFrames`
starts at 1 and is raised to each GIF's frame count
(`maxFrames = Math.max(maxFrames, frames.length)` under
`if (frames.length > 0)`); static images leave it unchanged. -/
def maxFramesOf (assets : List Asset) : ℕ :=
  assets.foldl (fun m a => if a.isGif ∧ 0 < a.frames.length then max m a.frames.length else m) 1

/-- `hasGifs` from the first pass: set when a GIF with at least one frame
is seen. -/
def hasGifsOf (assets : List Asset) : Bool :=
  assets.any fun a => a.isGif && decide (0 < a.frames.length)

/-- The frame of an asset used at output index `i`:
`const frameNum = i % asset.frameCount; const frame = asset.frames[frameNum]`. -/
def frameAt (a : Asset) (i : ℕ) : Frame := a.frames.getD (i % a.frameCount) default

/-- One step of the per-output-frame inner loop (`route.ts` lines 387-398):
the running `basePixels` (null before the first layer) and the running
`frameDelay` (initialised to 100), updated with the current layer's frame. -/
def combineStep (w h : ℕ) (acc : Option (List RGBA) × ℕ) (fr : Frame) :
    Option (List RGBA) × ℕ :=
  ((match acc.1 with
    | none => some fr.pixels
    | some base => some (compositeImages base fr.pixels w h)),
   max acc.2 fr.delay)

/-- The whole inner loop for output index `i`: fold `combineStep` over the
assets, starting from `basePixels = null`, `frameDelay = 100`. -/
def combineOne (w h : ℕ) (assets : List Asset) (i : ℕ) : Option (List RGBA) × ℕ :=
  assets.foldl (fun acc a => combineStep w h acc (frameAt a i)) (none, 100)

/-- The combined-frame construction (`route.ts` lines 380-411): one output
frame per index below `maxFrames`, quantized when any GIF is present,
pushed only when `basePixels` is non-null. -/
def combinedFrames (w h : ℕ) (assets : List Asset) : List (List RGBA × ℕ) :=
  if 0 < assets.length then
    (List.range (maxFramesOf assets)).filterMap fun i =>
      match combineOne w h assets i with
      | (some px, d) =>
          some ((if hasGifsOf assets then quantizeTo256Colors px else px), d)
      | (none, _) => none
  else []

/-- GIF encoding parameters (`route.ts` lines 418-430):
`delayCentisecs: Math.max(1, Math.floor(frame.delay / 10))`. -/
def delayCentisecs (delayMs : ℕ) : ℕ := max 1 (delayMs / 10)

/-- The loop count passed to the encoder: `loops: 0` (infinite). -/
def gifLoops : ℕ := 0

/-- The retry loop of `fetchImageWithRetry` (`route.ts` lines 7-22).
`oracle i` is the outcome of attempt number `i` (starting at 0); `rem` is
the number of attempts still permitted (initially `retries = 3`), with
`rem = 1` meaning the current attempt is the last (`i === retries - 1`).
Returns the result, the list of backoff waits performed
(`300 * (i + 1)` ms between attempts), and the number of attempts made. -/
def fetchAux {α : Type} (oracle : ℕ → Option α) : ℕ → ℕ → Option α × List ℕ × ℕ
  | 0, i => (none, [], i)
  | rem + 1, i =>
    match oracle i with
    | some v => (some v, [], i + 1)
    | none =>
      if rem = 0 then (none, [], i + 1)
      else
        let rest := fetchAux oracle rem (i + 1)
        (rest.1, 300 * (i + 1) :: rest.2.1, rest.2.2)

/-- `fetchImageWithRetry(url, retries = 3)` as a function of the attempt
oracle. -/
def fetchImageWithRetry {α : Type} (oracle : ℕ → Option α) : Option α × List ℕ × ℕ :=
  fetchAux oracle 3 0

/-- The lenient per-layer loop of the canvas route's `POST`
(`route.ts` lines 86-99): each URL is processed in order, a failing layer
is skipped (`catch { ... continue }`), successes are drawn in order. -/
def processLayersLenient {α : Type} (result : String → Option α) (urls : List String) :
    List (String × α) :=
  urls.filterMap fun u => (result u).map fun v => (u, v)

/-- JS `traitUrls.filter(Boolean)` over possibly-missing strings: drops
`null`/`undefined` (`none`) and the empty string. -/
def jsFilterBoolean (l : List (Option String)) : List String :=
  l.filterMap fun x =>
    match x with
    | none => none
    | some s => if s = "" then none else some s

/-- JS `[...new Set(l)]`: keep the first occurrence of each element. -/
def setInsertAll (seen : List String) : List String → List String
  | [] => []
  | x :: xs => if x ∈ seen then setInsertAll seen xs else x :: setInsertAll (x :: seen) xs

/-- `const uniqueUrls = [...new Set(traitUrls.filter(Boolean))]`
(`route.ts` lines 296-303). -/
def uniqueUrls (traitUrls : List (Option String)) : List String :=
  setInsertAll [] (jsFilterBoolean traitUrls)

/-- Canvas-size fold of `part_009`'s `POST` (lines 94-141): dimensions
start at 0×0, the first successfully loaded asset (GIF or static) sets
them (`if (!canvasWidth) { canvasWidth = width; ... }`), and 1000×1000 is
used when nothing loaded. -/
def canvas009 (assets : List (ℕ × ℕ)) : ℕ × ℕ :=
  let d := assets.foldl (fun acc wh => if acc.1 = 0 then wh else acc) (0, 0)
  if d.1 = 0 then (1000, 1000) else d

/-- One step of the canvas-size scan in `GifGenerator.tsx`'s `POST`
(lines 553-599): a GIF always overwrites the dimensions and sets
`hasGifs`; a static image overwrites them only while `hasGifs` is false. -/
def canvasGenStep (acc : (ℕ × ℕ) × Bool) (asset : Bool × ℕ × ℕ) : (ℕ × ℕ) × Bool :=
  if asset.1 then (asset.2, true)
  else if acc.2 then acc
  else (asset.2, acc.2)

/-- The canvas dimensions chosen by `GifGenerator.tsx`'s `POST`:
fold of `canvasGenStep` from 1000×1000 with `hasGifs = false`. -/
def canvasGen (assets : List (Bool × ℕ × ℕ)) : ℕ × ℕ :=
  (assets.foldl canvasGenStep ((1000, 1000), false)).1

example : canvasGen [(true, 200, 200), (true, 300, 300)] = (300, 300) := by decide
example : canvas009 [(500, 500), (200, 200)] = (500, 500) := by decide
example : uniqueUrls [some "a", none, some "", some "b", some "a"] = ["a", "b"] := by decide
example : fetchImageWithRetry (fun i => if i = 2 then some 7 else none) =
    (some 7, [300, 600], 3) := by decide
example : maxFramesOf [⟨true, [default, default, default], ""⟩,
    ⟨false, [default], ""⟩] = 3 := by decide

example :
    (combinedFrames 1 1
      [⟨true, [⟨[⟨4, 0, 0, 255⟩], 100⟩, ⟨[⟨8, 0, 0, 255⟩], 100⟩, ⟨[⟨12, 0, 0, 255⟩], 100⟩], "a"⟩,
       ⟨true, List.replicate 7 ⟨[⟨0, 0, 0, 0⟩], 100⟩, "b"⟩]).length = 7 := by decide

example :
    (combinedFrames 1 1
      [⟨true, [⟨[⟨4, 0, 0, 255⟩], 100⟩, ⟨[⟨8, 0, 0, 255⟩], 100⟩, ⟨[⟨12, 0, 0, 255⟩], 100⟩], "a"⟩,
       ⟨true, List.replicate 7 ⟨[⟨0, 0, 0, 0⟩], 100⟩, "b"⟩]).getD 5 default =
      ([⟨12, 0, 0, 255⟩], 100) := by decide

/-! ## Helper lemmas -/

/-- `setInsertAll` yields a duplicate-free list whose elements are first
occurrences of the input outside `seen`. -/
theorem setInsertAll_spec (l : List String) :
    ∀ seen, (setInsertAll seen l).Nodup ∧
      ∀ u, u ∈ setInsertAll seen l ↔ u ∈ l ∧ u ∉ seen := by
  induction l with
  | nil => intro seen; simp [setInsertAll]
  | cons x xs ih =>
    intro seen
    by_cases hx : x ∈ seen
    · rw [setInsertAll, if_pos hx]
      refine ⟨(ih seen).1, fun u => ?_⟩
      rw [(ih seen).2 u]
      constructor
      · rintro ⟨h1, h2⟩; exact ⟨List.mem_cons_of_mem _ h1, h2⟩
      · rintro ⟨h1, h2⟩
        rcases List.mem_cons.mp h1 with rfl | h1
        · exact absurd hx h2
        · exact ⟨h1, h2⟩
    · rw [setInsertAll, if_neg hx]
      have hmem := (ih (x :: seen)).2
      constructor
      · refine List.nodup_cons.mpr ⟨fun hc => ?_, (ih (x :: seen)).1⟩
        exact ((hmem x).mp hc).2 (List.mem_cons_self x seen)
      · intro u
        rw [List.mem_cons, hmem u]
        constructor
        · intro h
          rcases h with h | ⟨h1, h2⟩
          · subst h
            exact ⟨List.mem_cons_self _ _, hx⟩
          · exact ⟨List.mem_cons_of_mem _ h1, fun hs => h2 (List.mem_cons_of_mem _ hs)⟩
        · rintro ⟨h1, h2⟩
          rcases List.mem_cons.mp h1 with rfl | h1
          · exact Or.inl rfl
          · by_cases hux : u = x
            · exact Or.inl hux
            · exact Or.inr ⟨h1, fun hs =>
                h2 ((List.mem_cons.mp hs).resolve_left hux)⟩

/-- Membership in `jsFilterBoolean`: exactly the truthy entries survive. -/
theorem mem_jsFilterBoolean (l : List (Option String)) (u : String) :
    u ∈ jsFilterBoolean l ↔ some u ∈ l ∧ u ≠ "" := by
  rw [jsFilterBoolean, List.mem_filterMap]
  constructor
  · rintro ⟨x, hx, hfx⟩
    match x with
    | none => simp at hfx
    | some s =>
      by_cases hs : s = "" <;> simp [hs] at hfx
      exact ⟨hfx ▸ hx, hfx ▸ hs⟩
  · rintro ⟨h1, h2⟩
    exact ⟨some u, h1, by simp [h2]⟩

/-- A `filterMap` whose function returns `some` on every element preserves
length. -/
theorem length_filterMap_of_isSome {β γ : Type} (f : β → Option γ) :
    ∀ l : List β, (∀ x ∈ l, (f x).isSome) → (l.filterMap f).length = l.length := by
  intro l
  induction l with
  | nil => intro _; rfl
  | cons x xs ih =>
    intro h
    have hx := h x (List.mem_cons_self _ _)
    rcases Option.isSome_iff_exists.mp hx with ⟨v, hv⟩
    rw [List.filterMap_cons, hv]
    simp only [List.length_cons]
    rw [ih fun y hy => h y (List.mem_cons_of_mem _ hy)]

/-- Rebuilding a list by indexing over its range of positions. -/
theorem map_getD_range {β : Type} [Inhabited β] (l : List β) :
    (List.range l.length).map (fun i => l.getD i default) = l := by
  apply List.ext_getElem
  · simp
  · intro i h1 h2
    simp only [List.getElem_map, List.getElem_range]
    rw [List.getD_eq_getElem l default h2]

/-- The delay component of the combine fold: a running `max` over the used
frames' delays, seeded with the accumulator. -/
theorem combine_foldl_delay (w h i : ℕ) (assets : List Asset) :
    ∀ acc : Option (List RGBA) × ℕ,
      (assets.foldl (fun acc a => combineStep w h acc (frameAt a i)) acc).2 =
        (assets.map fun a => (frameAt a i).delay).foldl max acc.2 := by
  induction assets with
  | nil => intro acc; rfl
  | cons a as ih =>
    intro acc
    rw [List.foldl_cons, List.map_cons, List.foldl_cons, ih]
    rfl

/-- The pixel component of the combine fold stays `some` once set, and
becomes `some` on the first layer. -/
theorem combine_foldl_isSome (w h i : ℕ) (assets : List Asset) :
    ∀ (b : List RGBA) (d : ℕ),
      ((assets.foldl (fun acc a => combineStep w h acc (frameAt a i)) (some b, d)).1).isSome := by
  induction assets with
  | nil => intro b d; rfl
  | cons a as ih =>
    intro b d
    rw [List.foldl_cons]
    exact ih _ _

/-- The accumulator bounds the result of a `foldl max`. -/
theorem le_foldl_max (l : List ℕ) : ∀ acc : ℕ, acc ≤ l.foldl max acc := by
  induction l with
  | nil => intro acc; exact le_rfl
  | cons x xs ih =>
    intro acc
    exact le_trans (le_max_left acc x) (ih (max acc x))

/-- `foldl max` preserves divisibility by 10. -/
theorem dvd_foldl_max (l : List ℕ) :
    ∀ acc : ℕ, 10 ∣ acc → (∀ x ∈ l, 10 ∣ x) → 10 ∣ l.foldl max acc := by
  induction l with
  | nil => intro acc hacc _; exact hacc
  | cons x xs ih =>
    intro acc hacc hl
    refine ih (max acc x) ?_ fun y hy => hl y (List.mem_cons_of_mem _ hy)
    rcases max_choice acc x with hm | hm
    · rw [hm]; exact hacc
    · rw [hm]; exact hl x (List.mem_cons_self _ _)

/-- The frame an asset contributes is one of its frames, or the default
frame (whose delay is 0) when the asset has none. -/
theorem frameAt_mem_or_default (a : Asset) (i : ℕ) :
    frameAt a i ∈ a.frames ∨ frameAt a i = default := by
  rw [frameAt]
  by_cases h : i % a.frameCount < a.frames.length
  · left
    rw [List.getD_eq_getElem a.frames default h]
    exact List.getElem_mem h
  · right
    rw [List.getD_eq_default a.frames default (le_of_not_lt h)]

/-! ## Claim theorems -/

/-- C1, counterexample: the claim that the canonical z-order
`background, fur, face, eyes, mouth, head, mask, minion` is applied
consistently in the client preview and in the server export is false.
For the concrete layers `/assets/eyes/14.gif` and `/assets/mouth/12.gif`
the server export draws eyes below mouth (layer indices 3 < 4, the
canonical order), while the client preview's `getZIndex` stacks eyes on
top of mouth (z-indices 5 > 2): the relative order of the same two
layers disagrees between preview and export. -/
theorem c1_preview_export_disagree :
    getLayerIndex "/assets/eyes/14.gif" = 3 ∧
    getLayerIndex "/assets/mouth/12.gif" = 4 ∧
    getZIndex "eyes" = 5 ∧
    getZIndex "mouth" = 2 ∧
    ¬ (getZIndex "eyes" < getZIndex "mouth" ↔
        getLayerIndex "/assets/eyes/14.gif" < getLayerIndex "/assets/mouth/12.gif") := by
  decide

/-- C1, amended: the server export sorts the supplied URLs into the
canonical z-order `background, fur, face, eyes, mouth, head, mask, minion`
regardless of the order in which they were supplied (the sorted list is a
permutation of the input, ordered by canonical layer index), but the
client preview stacks layers by its own different order
`background, fur, mouth, head, mask, eyes, minion` (no `face` entry, and
`eyes` above `mouth`, `head` and `mask`), so preview and export do not
apply the same order. -/
theorem c1_sortUrls_canonical (urls : List String) :
    List.Perm (sortUrls urls) urls ∧
    List.Sorted layerLE (sortUrls urls) ∧
    clientTraitOrder ≠ layerOrder := by
  exact ⟨List.perm_insertionSort layerLE urls,
    List.sorted_insertionSort layerLE urls, by decide⟩

/-- C1 witness: the amended theorem evaluated on a concrete out-of-order
request. -/
theorem c1_sortUrls_canonical_witness :
    List.Perm (sortUrls ["/assets/mouth/12.gif", "/assets/background/1.gif"])
      ["/assets/mouth/12.gif", "/assets/background/1.gif"] ∧
    List.Sorted layerLE (sortUrls ["/assets/mouth/12.gif", "/assets/background/1.gif"]) ∧
    clientTraitOrder ≠ layerOrder :=
  c1_sortUrls_canonical ["/assets/mouth/12.gif", "/assets/background/1.gif"]

/-- C4, counterexample: the claim that a stored delay of 0 is normalized
to 10 ms is false on both cited decoders: the `route.ts` decoder turns a
stored 0 into `(0 || 10) * 10 = 100` ms, and the `GifGenerator.tsx`
decoder keeps it as `0 * 10 = 0` ms; neither returns 10 ms. -/
theorem c4_delay_zero_cex :
    delayMsRoute (some 0) = 100 ∧
    delayMsGen (some 0) = 0 ∧
    delayMsRoute (some 0) ≠ 10 ∧
    delayMsGen (some 0) ≠ 10 := by
  decide

/-- C4, amended: both decoders convert a positive stored delay (10 ms
units) to milliseconds by multiplying by 10; the `route.ts` decoder
replaces a falsy stored delay (0 or missing) with 10 units, yielding
100 ms, while the `GifGenerator.tsx` decoder multiplies a stored 0
directly (yielding 0 ms) and substitutes 10 units only when the delay
field is not a number. -/
theorem c4_delay_conversion (d : ℕ) (hd : 0 < d) :
    delayMsRoute (some d) = d * 10 ∧
    delayMsGen (some d) = d * 10 ∧
    delayMsRoute (some 0) = 100 ∧
    delayMsRoute none = 100 ∧
    delayMsGen (some 0) = 0 ∧
    delayMsGen none = 100 := by
  refine ⟨?_, rfl, rfl, rfl, rfl, rfl⟩
  rw [delayMsRoute]
  simp [Nat.pos_iff_ne_zero.mp hd]

/-- C4 witness: the amended conversion evaluated at a stored delay of 5
units. -/
theorem c4_delay_conversion_witness :
    0 < 5 ∧ delayMsRoute (some 5) = 5 * 10 ∧ delayMsGen (some 5) = 5 * 10 :=
  ⟨by decide, (c4_delay_conversion 5 (by decide)).1, (c4_delay_conversion 5 (by decide)).2.1⟩

/-- C7, counterexample: the claim that the output canvas size is the
dimensions of the first GIF layer encountered is false for the
`GifGenerator.tsx` variant: with two GIF layers of 200×200 and 300×300
the code chooses 300×300 (every GIF overwrites the running dimensions,
so the last GIF wins), not the first GIF's 200×200. -/
theorem c7_canvas_not_first_gif :
    canvasGen [(true, 200, 200), (true, 300, 300)] = (300, 300) ∧
    canvasGen [(true, 200, 200), (true, 300, 300)] ≠ (200, 200) := by
  decide

/-- Once the `part_009` canvas fold has non-zero width it never changes. -/
theorem fold009_frozen :
    ∀ (rest : List (ℕ × ℕ)) (acc : ℕ × ℕ), acc.1 ≠ 0 →
      rest.foldl (fun acc wh => if acc.1 = 0 then wh else acc) acc = acc := by
  intro rest
  induction rest with
  | nil => intro acc _; rfl
  | cons x xs ih =>
    intro acc hacc
    rw [List.foldl_cons, if_neg hacc]
    exact ih acc hacc

/-- After a GIF has been seen, static layers leave the `GifGenerator`
canvas fold unchanged. -/
theorem foldGen_true_frozen :
    ∀ (post : List (Bool × ℕ × ℕ)) (d : ℕ × ℕ), (∀ b ∈ post, b.1 = false) →
      post.foldl canvasGenStep (d, true) = (d, true) := by
  intro post
  induction post with
  | nil => intro d _; rfl
  | cons b bs ih =>
    intro d hb
    rw [List.foldl_cons]
    have h1 : canvasGenStep (d, true) b = (d, true) := by
      rw [canvasGenStep, if_neg (by simp [hb b (List.mem_cons_self _ _)]), if_pos rfl]
    rw [h1]
    exact ih d fun x hx => hb x (List.mem_cons_of_mem _ hx)

/-- While no GIF has been seen, the `GifGenerator` canvas fold keeps its
`hasGifs` flag false. -/
theorem foldGen_static_snd :
    ∀ (l : List (Bool × ℕ × ℕ)) (d : ℕ × ℕ), (∀ a ∈ l, a.1 = false) →
      ∃ d', l.foldl canvasGenStep (d, false) = (d', false) := by
  intro l
  induction l with
  | nil => intro d _; exact ⟨d, rfl⟩
  | cons a as ih =>
    intro d ha
    rw [List.foldl_cons]
    have h1 : canvasGenStep (d, false) a = (a.2, false) := by
      rw [canvasGenStep, if_neg (by simp [ha a (List.mem_cons_self _ _)])]
      rfl
    rw [h1]
    exact ih a.2 fun x hx => ha x (List.mem_cons_of_mem _ hx)

/-- C7, amended: in `part_009` the canvas takes the dimensions of the
first successfully loaded layer, GIF or static (defaulting to 1000×1000
when nothing loads); in the `GifGenerator.tsx` variant the canvas takes
the dimensions of the last GIF layer, or of the last static layer loaded
while no GIF had been seen, starting from 1000×1000. -/
theorem c7_canvas_rules :
    canvas009 [] = (1000, 1000) ∧
    (∀ w h rest, w ≠ 0 → canvas009 ((w, h) :: rest) = (w, h)) ∧
    (∀ pre w h post, (∀ b ∈ post, b.1 = false) →
      canvasGen (pre ++ (true, (w, h)) :: post) = (w, h)) ∧
    (∀ pre w h, (∀ a ∈ pre, a.1 = false) →
      canvasGen (pre ++ [(false, (w, h))]) = (w, h)) ∧
    canvasGen [] = (1000, 1000) := by
  refine ⟨rfl, ?_, ?_, ?_, rfl⟩
  · intro w h rest hw
    rw [canvas009, List.foldl_cons, if_pos rfl, fold009_frozen rest (w, h) hw]
    exact if_neg hw
  · intro pre w h post hpost
    rw [canvasGen, List.foldl_append, List.foldl_cons]
    rcases hs : pre.foldl canvasGenStep ((1000, 1000), false) with ⟨d, g⟩
    have hstep : canvasGenStep (d, g) (true, (w, h)) = ((w, h), true) := by
      rw [canvasGenStep, if_pos rfl]
    rw [hstep, foldGen_true_frozen post (w, h) hpost]
  · intro pre w h hpre
    rw [canvasGen, List.foldl_append]
    rcases foldGen_static_snd pre ((1000, 1000)) hpre with ⟨d', hd'⟩
    rw [hd', List.foldl_cons]
    have hstep : canvasGenStep (d', false) (false, (w, h)) = ((w, h), false) := by
      rw [canvasGenStep, if_neg (by simp)]
      rfl
    rw [hstep]
    rfl

/-- C7 witness: the amended rules evaluated on concrete layer lists. -/
theorem c7_canvas_rules_witness :
    canvas009 ((500, 600) :: [(200, 200)]) = (500, 600) ∧
    canvasGen ([(false, (5, 6))] ++ (true, (7, 8)) :: []) = (7, 8) ∧
    canvasGen ([(false, (5, 6))] ++ [(false, (9, 10))]) = (9, 10) :=
  ⟨(c7_canvas_rules).2.1 500 600 [(200, 200)] (by decide),
   (c7_canvas_rules).2.2.1 [(false, (5, 6))] 7 8 [] (by intro b hb; cases hb),
   (c7_canvas_rules).2.2.2.1 [(false, (5, 6))] 9 10 (by intro a ha; simp at ha; rw [ha])⟩

/-- C10: the gifwrap route deduplicates `traitUrls` before loading any
asset: falsy entries (missing or empty strings) are dropped, the
resulting URL list is duplicate-free and contains exactly the distinct
truthy request entries, and in the asset list built from it (one asset
per unique URL, carrying that URL) each distinct URL accounts for at most
one layer, hence at most one layer per output frame. -/
theorem c10_uniqueUrls_dedup :
    (∀ l, (uniqueUrls l).Nodup) ∧
    (∀ l u, u ∈ uniqueUrls l ↔ some u ∈ l ∧ u ≠ "") ∧
    (∀ l u, (uniqueUrls l).count u ≤ 1) ∧
    (∀ (l : List (Option String)) (mk : String → Asset), (∀ s, (mk s).url = s) →
      ∀ u, ((uniqueUrls l).map mk).countP (fun a => a.url == u) ≤ 1) := by
  have hnodup : ∀ l, (uniqueUrls l).Nodup :=
    fun l => (setInsertAll_spec (jsFilterBoolean l) []).1
  have hcount : ∀ l u, (uniqueUrls l).count u ≤ 1 :=
    fun l => List.nodup_iff_count_le_one.mp (hnodup l)
  refine ⟨hnodup, ?_, hcount, ?_⟩
  · intro l u
    rw [uniqueUrls]
    rw [(setInsertAll_spec (jsFilterBoolean l) []).2 u]
    rw [mem_jsFilterBoolean]
    simp
  · intro l mk hmk u
    rw [List.countP_map]
    have heq : ((fun a : Asset => a.url == u) ∘ mk) = fun s => s == u := by
      funext s
      simp [Function.comp, hmk s]
    rw [heq]
    exact hcount l u

/-- C10 witness: deduplication evaluated on a concrete request body with
a falsy entry and a repeated URL. -/
theorem c10_uniqueUrls_dedup_witness :
    (uniqueUrls [some "a", none, some "", some "b", some "a"]).Nodup ∧
    ("a" ∈ uniqueUrls [some "a", none, some "", some "b", some "a"] ↔
      some "a" ∈ [some "a", none, some "", some "b", some "a"] ∧ "a" ≠ "") ∧
    (uniqueUrls [some "a", none, some "", some "b", some "a"]).count "a" ≤ 1 :=
  ⟨c10_uniqueUrls_dedup.1 _,
   c10_uniqueUrls_dedup.2.1 _ "a",
   c10_uniqueUrls_dedup.2.2.1 _ "a"⟩

/-- Full evaluation of the three-attempt retry loop as a case split on
the first three oracle outcomes. -/
theorem fetch_eval {α : Type} (oracle : ℕ → Option α) :
    fetchImageWithRetry oracle =
      match oracle 0 with
      | some v => (some v, [], 1)
      | none =>
        match oracle 1 with
        | some v => (some v, [300], 2)
        | none =>
          match oracle 2 with
          | some v => (some v, [300, 600], 3)
          | none => (none, [300, 600], 3) := by
  rcases h0 : oracle 0 with _ | v0 <;> rcases h1 : oracle 1 with _ | v1 <;>
    rcases h2 : oracle 2 with _ | v2 <;>
      simp [fetchImageWithRetry, fetchAux, h0, h1, h2]

/-- C9: `fetchImageWithRetry` makes at most 3 attempts, waits 300 ms then
600 ms between attempts (linear backoff), fails only when all three
attempts fail, and returns the first success; and in the lenient
canvas-route variant a URL whose processing fails is simply omitted from
the drawn layers while every successful URL is drawn. -/
theorem c9_fetch_retry (oracle : ℕ → Option ℕ) :
    (fetchImageWithRetry oracle).2.2 ≤ 3 ∧
    ((fetchImageWithRetry oracle).1 = none ↔
      oracle 0 = none ∧ oracle 1 = none ∧ oracle 2 = none) ∧
    (∀ v, oracle 0 = some v → fetchImageWithRetry oracle = (some v, [], 1)) ∧
    (∀ v, oracle 0 = none → oracle 1 = some v →
      fetchImageWithRetry oracle = (some v, [300], 2)) ∧
    (∀ v, oracle 0 = none → oracle 1 = none → oracle 2 = some v →
      fetchImageWithRetry oracle = (some v, [300, 600], 3)) ∧
    (oracle 0 = none → oracle 1 = none → oracle 2 = none →
      fetchImageWithRetry oracle = (none, [300, 600], 3)) ∧
    (∀ (urls : List String) (res : String → Option ℕ) u, res u = none →
      ∀ v, (u, v) ∉ processLayersLenient res urls) ∧
    (∀ (urls : List String) (res : String → Option ℕ) u v, u ∈ urls → res u = some v →
      (u, v) ∈ processLayersLenient res urls) := by
  have heval := fetch_eval oracle
  refine ⟨?_, ?_, ?_, ?_, ?_, ?_, ?_, ?_⟩
  · rw [heval]
    rcases oracle 0 <;> rcases oracle 1 <;> rcases oracle 2 <;> simp
  · rw [heval]
    rcases h0 : oracle 0 <;> rcases h1 : oracle 1 <;> rcases h2 : oracle 2 <;> simp
  · intro v h0
    rw [heval, h0]
  · intro v h0 h1
    rw [heval, h0, h1]
  · intro v h0 h1 h2
    rw [heval, h0, h1, h2]
  · intro h0 h1 h2
    rw [heval, h0, h1, h2]
  · intro urls res u hu v hmem
    rw [processLayersLenient, List.mem_filterMap] at hmem
    rcases hmem with ⟨x, _, hx⟩
    rcases hres : res x with _ | w
    · rw [hres] at hx; simp at hx
    · rw [hres] at hx
      have hx2 : (x, w) = (u, v) := by simpa using hx
      have hxu : x = u := congrArg Prod.fst hx2
      rw [hxu, hu] at hres
      cases hres
  · intro urls res u v hu hres
    rw [processLayersLenient, List.mem_filterMap]
    exact ⟨u, hu, by rw [hres]; rfl⟩

/-- C9 witness: the retry characterization evaluated on an oracle that
fails twice then succeeds, and the lenient loop on a concrete URL list. -/
theorem c9_fetch_retry_witness :
    fetchImageWithRetry (fun i => if i = 2 then some 7 else none) = (some 7, [300, 600], 3) ∧
    ("u", 7) ∈ processLayersLenient
      (fun s => if s = "u" then some 7 else none) ["bad", "u"] :=
  ⟨(c9_fetch_retry (fun i => if i = 2 then some 7 else none)).2.2.2.2.1 7 rfl rfl rfl,
   (c9_fetch_retry (fun _ => none)).2.2.2.2.2.2.2 ["bad", "u"]
     (fun s => if s = "u" then some 7 else none) "u" 7 (by decide) (by decide)⟩

/-- Under the pipeline's construction invariant (static assets carry
exactly one frame), the first-pass fold computing `maxFrames` agrees with
a plain running maximum of all frame counts. -/
theorem maxFrames_fold_eq (assets : List Asset) :
    ∀ m, 1 ≤ m → (∀ a ∈ assets, a.isGif = false → a.frames.length = 1) →
      assets.foldl
        (fun m a => if a.isGif ∧ 0 < a.frames.length then max m a.frames.length else m) m =
      assets.foldl (fun m a => max m a.frameCount) m := by
  induction assets with
  | nil => intro m _ _; rfl
  | cons a as ih =>
    intro m hm hstat
    rw [List.foldl_cons, List.foldl_cons]
    have hstat2 : ∀ x ∈ as, x.isGif = false → x.frames.length = 1 :=
      fun x hx => hstat x (List.mem_cons_of_mem _ hx)
    by_cases hg : a.isGif = true
    · by_cases hl : 0 < a.frames.length
      · rw [if_pos ⟨hg, hl⟩]
        exact ih (max m a.frames.length) (le_trans hm (le_max_left _ _)) hstat2
      · rw [if_neg (fun hc => hl hc.2)]
        have h0 : a.frameCount = 0 := by
          rw [Asset.frameCount]
          omega
        have hmax : max m a.frameCount = m := by rw [h0]; exact Nat.max_eq_left (Nat.zero_le m)
        rw [hmax]
        exact ih m hm hstat2
    · have hg2 : a.isGif = false := by simpa using hg
      have hlen := hstat a (List.mem_cons_self _ _) hg2
      rw [if_neg (fun hc => hg hc.1)]
      have hmax : max m a.frameCount = m := by
        rw [Asset.frameCount, hlen]
        exact Nat.max_eq_left hm
      rw [hmax]
      exact ih m hm hstat2

/-- The first-pass fold never decreases below its seed. -/
theorem le_maxFrames_fold (assets : List Asset) :
    ∀ m, m ≤ assets.foldl
      (fun m a => if a.isGif ∧ 0 < a.frames.length then max m a.frames.length else m) m := by
  induction assets with
  | nil => intro m; exact le_rfl
  | cons a as ih =>
    intro m
    rw [List.foldl_cons]
    refine le_trans ?_ (ih _)
    by_cases hc : a.isGif ∧ 0 < a.frames.length
    · rw [if_pos hc]; exact le_max_left _ _
    · rw [if_neg hc]

/-- On a non-empty asset list the inner combine loop always produces a
pixel buffer. -/
theorem combineOne_isSome (w h i : ℕ) :
    ∀ assets : List Asset, assets ≠ [] → ((combineOne w h assets i).1).isSome := by
  intro assets hne
  match assets with
  | a :: as =>
    rw [combineOne, List.foldl_cons]
    have hstep : combineStep w h (none, 100) (frameAt a i) =
        (some (frameAt a i).pixels, max 100 (frameAt a i).delay) := rfl
    rw [hstep]
    exact combine_foldl_isSome w h i as _ _

/-- C2: the synchronized output frame count is the maximum of the layers'
frame counts with minimum 1 (static layers carry exactly one frame, as
the second pass constructs them), the combined output has exactly that
many frames, each layer contributes frame `i mod frameCount` at output
index `i`, and in the concrete [3, 7] scenario the output has 7 frames
with the 3-frame layer contributing its frame 2 at output index 5. -/
theorem c2_frame_sync (assets : List Asset) (w h : ℕ)
    (hne : assets ≠ [])
    (hstatic : ∀ a ∈ assets, a.isGif = false → a.frames.length = 1) :
    maxFramesOf assets = assets.foldl (fun m a => max m a.frameCount) 1 ∧
    1 ≤ maxFramesOf assets ∧
    (combinedFrames w h assets).length = maxFramesOf assets ∧
    (∀ (a : Asset) (i : ℕ), frameAt a i = a.frames.getD (i % a.frames.length) default) ∧
    (combinedFrames 1 1
      [⟨true, [⟨[⟨4, 0, 0, 255⟩], 100⟩, ⟨[⟨8, 0, 0, 255⟩], 100⟩, ⟨[⟨12, 0, 0, 255⟩], 100⟩], "a"⟩,
       ⟨true, List.replicate 7 ⟨[⟨0, 0, 0, 0⟩], 100⟩, "b"⟩]).length = 7 ∧
    (combinedFrames 1 1
      [⟨true, [⟨[⟨4, 0, 0, 255⟩], 100⟩, ⟨[⟨8, 0, 0, 255⟩], 100⟩, ⟨[⟨12, 0, 0, 255⟩], 100⟩], "a"⟩,
       ⟨true, List.replicate 7 ⟨[⟨0, 0, 0, 0⟩], 100⟩, "b"⟩]).getD 5 default =
      ([⟨12, 0, 0, 255⟩], 100) := by
  refine ⟨maxFrames_fold_eq assets 1 le_rfl hstatic, le_maxFrames_fold assets 1,
    ?_, fun a i => rfl, by decide, by decide⟩
  rw [combinedFrames, if_pos (List.length_pos.mpr hne)]
  rw [length_filterMap_of_isSome _ _ ?_, List.length_range]
  intro i _
  rcases hx : combineOne w h assets i with ⟨op, d⟩
  have hsome := combineOne_isSome w h i assets hne
  rw [hx] at hsome
  rcases op with _ | px
  · cases hsome
  · rfl

/-- C2 witness: the synchronizer characterization evaluated on the
concrete two-layer [3, 7] scenario. -/
theorem c2_frame_sync_witness :
    (combinedFrames 1 1
      [⟨true, [⟨[⟨4, 0, 0, 255⟩], 100⟩, ⟨[⟨8, 0, 0, 255⟩], 100⟩, ⟨[⟨12, 0, 0, 255⟩], 100⟩], "a"⟩,
       ⟨true, List.replicate 7 ⟨[⟨0, 0, 0, 0⟩], 100⟩, "b"⟩]).length =
    maxFramesOf
      [⟨true, [⟨[⟨4, 0, 0, 255⟩], 100⟩, ⟨[⟨8, 0, 0, 255⟩], 100⟩, ⟨[⟨12, 0, 0, 255⟩], 100⟩], "a"⟩,
       ⟨true, List.replicate 7 ⟨[⟨0, 0, 0, 0⟩], 100⟩, "b"⟩] :=
  (c2_frame_sync _ 1 1 (by decide) (by decide)).2.2.1

/-- C3, counterexample: the claim that an output frame's delay is exactly
the maximum of the delays of the source frames used at that index is
false: with a single layer whose only frame has delay 50 ms (the maximum
of the used source delays is 50), the code assigns 100 ms because the
running maximum is seeded with the constant 100. -/
theorem c3_delay_seed_cex :
    combineOne 1 1 [⟨true, [⟨[⟨0, 0, 0, 255⟩], 50⟩], "a"⟩] 0 =
      (some [⟨0, 0, 0, 255⟩], 100) ∧
    ([⟨true, [⟨[⟨0, 0, 0, 255⟩], 50⟩], "a"⟩] : List Asset).map
      (fun a => (frameAt a 0).delay) = [50] ∧
    (100 : ℕ) ≠ 50 := by
  decide

/-- C3, amended: the delay assigned to output frame `i` is the maximum of
the constant seed 100 ms and the delays of the source frames actually
used at that index across all layers; in particular it is never below
100 ms. -/
theorem c3_frame_delay (assets : List Asset) (w h i : ℕ) :
    (combineOne w h assets i).2 =
      (assets.map fun a => (frameAt a i).delay).foldl max 100 ∧
    100 ≤ (combineOne w h assets i).2 := by
  have h1 : (combineOne w h assets i).2 =
      (assets.map fun a => (frameAt a i).delay).foldl max 100 :=
    combine_foldl_delay w h i assets (none, 100)
  exact ⟨h1, by rw [h1]; exact le_foldl_max _ 100⟩

/-- C8: encoding sets each output frame's delay field to
`max(1, floor(delayMs / 10))` centiseconds and the loop count to 0
(infinite); since every delay the pipeline feeds the encoder is a
multiple of 10 (decoded delays are `units * 10`, static frames get 100,
and the per-frame maximum is seeded with 100), the floored division
coincides with rounding `delayMs / 10` to the nearest integer, so each
delay field is `delaysMs[i] / 10` rounded with a minimum of one
centisecond. -/
theorem c8_encoder_params :
    gifLoops = 0 ∧
    (∀ d : ℕ, delayCentisecs d = max 1 (d / 10)) ∧
    (∀ d : ℕ, 10 ∣ d → (delayCentisecs d : ℤ) = max 1 (jsRound ((d : ℚ) / 10))) ∧
    (∀ sd : Option ℕ, 10 ∣ delayMsRoute sd) ∧
    (∀ (assets : List Asset) (w h i : ℕ),
      (∀ a ∈ assets, ∀ fr ∈ a.frames, 10 ∣ fr.delay) →
      10 ∣ (combineOne w h assets i).2) := by
  refine ⟨rfl, fun d => rfl, ?_, ?_, ?_⟩
  · rintro d ⟨k, rfl⟩
    have hq : ((10 * k : ℕ) : ℚ) / 10 = (k : ℚ) := by
      push_cast
      exact mul_div_cancel_left₀ _ (by norm_num)
    have hr : jsRound (k : ℚ) = (k : ℤ) := by
      rw [jsRound]
      have hcast : ((k : ℚ) + 1 / 2) = ((k : ℤ) : ℚ) + 1 / 2 := by push_cast; ring
      rw [hcast, Int.floor_int_add]
      norm_num
    rw [hq, hr, delayCentisecs, Nat.mul_div_cancel_left k (by norm_num)]
    push_cast [Nat.cast_max]
    rfl
  · intro sd
    exact dvd_mul_left 10 _
  · intro assets w h i hdvd
    have h1 : (combineOne w h assets i).2 =
        (assets.map fun a => (frameAt a i).delay).foldl max 100 :=
      combine_foldl_delay w h i assets (none, 100)
    rw [h1]
    refine dvd_foldl_max _ 100 (by norm_num) ?_
    intro x hx
    rw [List.mem_map] at hx
    rcases hx with ⟨a, ha, rfl⟩
    rcases frameAt_mem_or_default a i with hm | hd
    · exact hdvd a ha _ hm
    · rw [hd]
      exact dvd_zero 10

/-- C8 witness: the encoder-delay characterization evaluated at a
pipeline delay of 150 ms and on a concrete asset list. -/
theorem c8_encoder_params_witness :
    (delayCentisecs 150 : ℤ) = max 1 (jsRound ((150 : ℚ) / 10)) ∧
    10 ∣ (combineOne 1 1 [⟨true, [⟨[⟨0, 0, 0, 255⟩], 50⟩], "a"⟩] 0).2 :=
  ⟨c8_encoder_params.2.2.1 150 (by decide),
   c8_encoder_params.2.2.2.2 [⟨true, [⟨[⟨0, 0, 0, 255⟩], 50⟩], "a"⟩] 1 1 0 (by decide)⟩

/-- C6: `resizeFrame` produces a buffer of `dstW * dstH` RGBA pixels,
sampling pixel `(x, y)` from source coordinates
`(min(floor(x * srcW / dstW), srcW - 1), min(floor(y * srcH / dstH), srcH - 1))`
with all four channels copied, and is the identity when source and
destination dimensions coincide. -/
theorem c6_resize_spec :
    (∀ (pixels : List RGBA) (srcW srcH dstW dstH : ℕ), pixels.length = srcW * srcH →
      (resizeFrame pixels srcW srcH dstW dstH).length = dstW * dstH) ∧
    (∀ (pixels : List RGBA) (srcW srcH dstW dstH x y : ℕ),
      ¬(srcW = dstW ∧ srcH = dstH) → x < dstW → y < dstH →
      (resizeFrame pixels srcW srcH dstW dstH).getD (y * dstW + x) default =
        pixels.getD
          (min (y * srcH / dstH) (srcH - 1) * srcW + min (x * srcW / dstW) (srcW - 1))
          default) ∧
    (∀ (pixels : List RGBA) (srcW srcH : ℕ), resizeFrame pixels srcW srcH srcW srcH = pixels) := by
  refine ⟨?_, ?_, ?_⟩
  · intro pixels srcW srcH dstW dstH hlen
    by_cases heq : srcW = dstW ∧ srcH = dstH
    · rw [resizeFrame, if_pos heq, hlen, heq.1, heq.2]
    · rw [resizeFrame, if_neg heq, List.length_map, List.length_range, Nat.mul_comm]
  · intro pixels srcW srcH dstW dstH x y hne hx hy
    have hW : 0 < dstW := lt_of_le_of_lt (Nat.zero_le x) hx
    have hidx : y * dstW + x < dstH * dstW := by
      calc y * dstW + x < y * dstW + dstW := by omega
        _ = (y + 1) * dstW := by ring
        _ ≤ dstH * dstW := Nat.mul_le_mul_right _ (by omega)
    have hdiv : (y * dstW + x) / dstW = y := by
      rw [Nat.add_comm, Nat.mul_comm, Nat.add_mul_div_left _ _ hW, Nat.div_eq_of_lt hx,
        Nat.zero_add]
    have hmod : (y * dstW + x) % dstW = x := by
      rw [Nat.add_comm, Nat.mul_comm, Nat.add_mul_mod_self_left, Nat.mod_eq_of_lt hx]
    rw [resizeFrame, if_neg hne]
    rw [List.getD_eq_getElem?_getD, List.getElem?_map, List.getElem?_range hidx]
    simp only [Option.map_some', Option.getD_some]
    rw [hdiv, hmod]
  · intro pixels srcW srcH
    rw [resizeFrame, if_pos ⟨rfl, rfl⟩]

/-- C6 witness: the resizer contract evaluated on a concrete 2×2 frame
upscaled to 4×4. -/
theorem c6_resize_spec_witness :
    (resizeFrame [⟨1, 1, 1, 255⟩, ⟨2, 2, 2, 255⟩, ⟨3, 3, 3, 255⟩, ⟨4, 4, 4, 255⟩] 2 2 4 4).length =
      4 * 4 ∧
    (resizeFrame [⟨1, 1, 1, 255⟩, ⟨2, 2, 2, 255⟩, ⟨3, 3, 3, 255⟩, ⟨4, 4, 4, 255⟩] 2 2 4 4).getD
        (0 * 4 + 3) default =
      [⟨1, 1, 1, 255⟩, ⟨2, 2, 2, 255⟩, ⟨3, 3, 3, 255⟩, ⟨4, 4, 4, 255⟩].getD
        (min (0 * 2 / 4) (2 - 1) * 2 + min (3 * 2 / 4) (2 - 1)) default :=
  ⟨c6_resize_spec.1 _ 2 2 4 4 rfl,
   c6_resize_spec.2.1 _ 2 2 4 4 3 0 (by decide) (by decide) (by decide)⟩

/-- `toU8` is plain truncation on integers already in byte range. -/
theorem toU8_of_bounds {z : ℤ} (h0 : 0 ≤ z) (h255 : z ≤ 255) : toU8 z = z.toNat := by
  rw [toU8, Int.emod_eq_of_lt h0 (by omega)]

/-- `jsRound` keeps nonnegative inputs nonnegative. -/
theorem jsRound_nonneg {q : ℚ} (h : 0 ≤ q) : 0 ≤ jsRound q := by
  rw [jsRound]
  exact Int.le_floor.mpr (by push_cast; linarith)

/-- `jsRound` keeps inputs at most 255 within the byte range. -/
theorem jsRound_le_255 {q : ℚ} (h : q ≤ 255) : jsRound q ≤ 255 := by
  rw [jsRound]
  have hlt : ⌊q + 1 / 2⌋ < 256 := Int.floor_lt.mpr (by push_cast; linarith)
  omega

/-- Bounds for the normalized alpha fractions and the blended alpha. -/
theorem alpha_frac_bounds {n : ℕ} (h1 : 1 ≤ n) (h255 : n ≤ 255) :
    0 < (n : ℚ) / 255 ∧ (n : ℚ) / 255 ≤ 1 := by
  constructor
  · apply div_pos _ (by norm_num)
    exact_mod_cast h1
  · rw [div_le_one (by norm_num)]
    exact_mod_cast h255

/-- The blended alpha `overlayA + baseA * (1 - overlayA)` lies in `(0, 1]`
when both source alphas do. -/
theorem blend_alpha_bounds {qO qB : ℚ} (hO0 : 0 < qO) (hO1 : qO ≤ 1)
    (hB0 : 0 < qB) (hB1 : qB ≤ 1) :
    0 < qO + qB * (1 - qO) ∧ qO + qB * (1 - qO) ≤ 1 := by
  constructor
  · nlinarith
  · nlinarith

/-- A blended color channel lies in `[0, 255]` when both source channels
are bytes and both alphas are nonzero bytes. -/
theorem blend_channel_bounds {cO cB : ℚ} {qO qB : ℚ}
    (hcO0 : 0 ≤ cO) (hcO : cO ≤ 255) (hcB0 : 0 ≤ cB) (hcB : cB ≤ 255)
    (hO0 : 0 < qO) (hO1 : qO ≤ 1) (hB0 : 0 < qB) (hB1 : qB ≤ 1) :
    0 ≤ (cO * qO + cB * qB * (1 - qO)) / (qO + qB * (1 - qO)) ∧
    (cO * qO + cB * qB * (1 - qO)) / (qO + qB * (1 - qO)) ≤ 255 := by
  have halpha : 0 < qO + qB * (1 - qO) := (blend_alpha_bounds hO0 hO1 hB0 hB1).1
  have h1mqO : (0 : ℚ) ≤ 1 - qO := by linarith
  constructor
  · apply div_nonneg _ (le_of_lt halpha)
    nlinarith [mul_nonneg hcO0 (le_of_lt hO0),
      mul_nonneg (mul_nonneg hcB0 (le_of_lt hB0)) h1mqO]
  · rw [div_le_iff₀ halpha]
    nlinarith [mul_nonneg (by linarith : (0 : ℚ) ≤ 255 - cO) (le_of_lt hO0),
      mul_nonneg (mul_nonneg (by linarith : (0 : ℚ) ≤ 255 - cB) (le_of_lt hB0)) h1mqO]

/-- C5, counterexample: the claim that when the base pixel's alpha is 0
the overlay pixel is taken unchanged (so any frame composited over a
fully transparent base yields that frame) is false: the code checks the
overlay's alpha first, so a zero-alpha overlay pixel with non-zero color
bytes is replaced by the transparent base pixel, not preserved. -/
theorem c5_transparent_base_cex :
    compositeImages [⟨0, 0, 0, 0⟩] [⟨255, 0, 0, 0⟩] 1 1 = [⟨0, 0, 0, 0⟩] ∧
    ([⟨0, 0, 0, 0⟩] : List RGBA) ≠ [⟨255, 0, 0, 0⟩] := by
  decide

/-- C5, amended: the compositor implements the standard source-over
operator with rounding to the nearest integer in `[0, 255]`: a fully
transparent overlay pixel passes the base through unchanged (checked
first); a fully transparent base pixel takes the overlay unchanged
provided the overlay's alpha is non-zero; when both alphas are non-zero
bytes each output channel is `Math.round` of the over formula and stays
in byte range.  At the frame level, compositing a fully transparent
overlay over any frame yields that frame, and compositing a frame over a
fully transparent base yields that frame provided every pixel of the
frame has non-zero alpha (zero-alpha colored pixels are replaced by the
transparent base pixel, per the counterexample). -/
theorem c5_composite_rules :
    (∀ base overlay : RGBA, overlay.a = 0 → compositePixel base overlay = base) ∧
    (∀ base overlay : RGBA, base.a = 0 → overlay.a ≠ 0 →
      compositePixel base overlay = overlay) ∧
    (∀ base overlay : RGBA,
      base.r ≤ 255 → base.g ≤ 255 → base.b ≤ 255 → base.a ≤ 255 →
      overlay.r ≤ 255 → overlay.g ≤ 255 → overlay.b ≤ 255 → overlay.a ≤ 255 →
      base.a ≠ 0 → overlay.a ≠ 0 →
      (compositePixel base overlay).r =
        (jsRound (((overlay.r : ℚ) * ((overlay.a : ℚ) / 255) +
          (base.r : ℚ) * ((base.a : ℚ) / 255) * (1 - (overlay.a : ℚ) / 255)) /
          ((overlay.a : ℚ) / 255 + (base.a : ℚ) / 255 * (1 - (overlay.a : ℚ) / 255)))).toNat ∧
      (compositePixel base overlay).g =
        (jsRound (((overlay.g : ℚ) * ((overlay.a : ℚ) / 255) +
          (base.g : ℚ) * ((base.a : ℚ) / 255) * (1 - (overlay.a : ℚ) / 255)) /
          ((overlay.a : ℚ) / 255 + (base.a : ℚ) / 255 * (1 - (overlay.a : ℚ) / 255)))).toNat ∧
      (compositePixel base overlay).b =
        (jsRound (((overlay.b : ℚ) * ((overlay.a : ℚ) / 255) +
          (base.b : ℚ) * ((base.a : ℚ) / 255) * (1 - (overlay.a : ℚ) / 255)) /
          ((overlay.a : ℚ) / 255 + (base.a : ℚ) / 255 * (1 - (overlay.a : ℚ) / 255)))).toNat ∧
      (compositePixel base overlay).a =
        (jsRound (((overlay.a : ℚ) / 255 +
          (base.a : ℚ) / 255 * (1 - (overlay.a : ℚ) / 255)) * 255)).toNat ∧
      (compositePixel base overlay).r ≤ 255 ∧
      (compositePixel base overlay).g ≤ 255 ∧
      (compositePixel base overlay).b ≤ 255 ∧
      (compositePixel base overlay).a ≤ 255) ∧
    (∀ (frame : List RGBA) (w h : ℕ), frame.length = w * h →
      compositeImages frame (List.replicate (w * h) default) w h = frame) ∧
    (∀ (frame : List RGBA) (w h : ℕ), frame.length = w * h →
      (∀ p ∈ frame, p.a ≠ 0) →
      compositeImages (List.replicate (w * h) default) frame w h = frame) := by
  have hrep : ∀ (w h : ℕ) (i : ℕ),
      (List.replicate (w * h) (default : RGBA)).getD i default = default := by
    intro w h i
    by_cases hi : i < w * h
    · rw [List.getD_eq_getElem _ _ (by simpa using hi), List.getElem_replicate]
    · rw [List.getD_eq_default _ _ (by simpa using le_of_not_lt hi)]
  refine ⟨?_, ?_, ?_, ?_, ?_⟩
  · intro base overlay hoa
    rw [compositePixel, if_pos hoa]
  · intro base overlay hba hoa
    rw [compositePixel, if_neg hoa, if_pos hba]
  · intro base overlay hbr hbg hbb hba hor hog hob hoa hbne hone
    set qO : ℚ := (overlay.a : ℚ) / 255 with hqO
    set qB : ℚ := (base.a : ℚ) / 255 with hqB
    have hOfrac : 0 < qO ∧ qO ≤ 1 :=
      alpha_frac_bounds (Nat.one_le_iff_ne_zero.mpr hone) hoa
    have hBfrac : 0 < qB ∧ qB ≤ 1 :=
      alpha_frac_bounds (Nat.one_le_iff_ne_zero.mpr hbne) hba
    have halpha := blend_alpha_bounds hOfrac.1 hOfrac.2 hBfrac.1 hBfrac.2
    have hR := blend_channel_bounds (Nat.cast_nonneg overlay.r) (by exact_mod_cast hor)
      (Nat.cast_nonneg base.r) (by exact_mod_cast hbr)
      hOfrac.1 hOfrac.2 hBfrac.1 hBfrac.2
    have hG := blend_channel_bounds (Nat.cast_nonneg overlay.g) (by exact_mod_cast hog)
      (Nat.cast_nonneg base.g) (by exact_mod_cast hbg)
      hOfrac.1 hOfrac.2 hBfrac.1 hBfrac.2
    have hB := blend_channel_bounds (Nat.cast_nonneg overlay.b) (by exact_mod_cast hob)
      (Nat.cast_nonneg base.b) (by exact_mod_cast hbb)
      hOfrac.1 hOfrac.2 hBfrac.1 hBfrac.2
    have hA0 : 0 ≤ (qO + qB * (1 - qO)) * 255 := by nlinarith [halpha.1]
    have hA1 : (qO + qB * (1 - qO)) * 255 ≤ 255 := by nlinarith [halpha.2]
    have hunfold : compositePixel base overlay =
        { r := toU8 (jsRound ((overlay.r * qO + base.r * qB * (1 - qO)) / (qO + qB * (1 - qO))))
          g := toU8 (jsRound ((overlay.g * qO + base.g * qB * (1 - qO)) / (qO + qB * (1 - qO))))
          b := toU8 (jsRound ((overlay.b * qO + base.b * qB * (1 - qO)) / (qO + qB * (1 - qO))))
          a := toU8 (jsRound ((qO + qB * (1 - qO)) * 255)) } := by
      rw [compositePixel, if_neg hone, if_neg hbne]
    rw [hunfold]
    refine ⟨toU8_of_bounds (jsRound_nonneg hR.1) (jsRound_le_255 hR.2),
      toU8_of_bounds (jsRound_nonneg hG.1) (jsRound_le_255 hG.2),
      toU8_of_bounds (jsRound_nonneg hB.1) (jsRound_le_255 hB.2),
      toU8_of_bounds (jsRound_nonneg hA0) (jsRound_le_255 hA1), ?_, ?_, ?_, ?_⟩
    · rw [toU8_of_bounds (jsRound_nonneg hR.1) (jsRound_le_255 hR.2)]
      exact Int.toNat_le.mpr (jsRound_le_255 hR.2)
    · rw [toU8_of_bounds (jsRound_nonneg hG.1) (jsRound_le_255 hG.2)]
      exact Int.toNat_le.mpr (jsRound_le_255 hG.2)
    · rw [toU8_of_bounds (jsRound_nonneg hB.1) (jsRound_le_255 hB.2)]
      exact Int.toNat_le.mpr (jsRound_le_255 hB.2)
    · rw [toU8_of_bounds (jsRound_nonneg hA0) (jsRound_le_255 hA1)]
      exact Int.toNat_le.mpr (jsRound_le_255 hA1)
  · intro frame w h hlen
    rw [compositeImages]
    have hmap : ∀ i ∈ List.range (h * w),
        compositePixel (frame.getD i default)
          ((List.replicate (w * h) (default : RGBA)).getD i default) =
        frame.getD i default := by
      intro i _
      rw [hrep w h i]
      rfl
    rw [List.map_congr_left hmap]
    have hwh : h * w = frame.length := by rw [hlen]; ring
    rw [hwh, map_getD_range]
  · intro frame w h hlen hvis
    rw [compositeImages]
    have hmap : ∀ i ∈ List.range (h * w),
        compositePixel ((List.replicate (w * h) (default : RGBA)).getD i default)
          (frame.getD i default) =
        frame.getD i default := by
      intro i hi
      rw [hrep w h i]
      have hilt : i < frame.length := by
        have h1 := List.mem_range.mp hi
        rw [hlen, Nat.mul_comm]
        exact h1
      have hpa : (frame.getD i default).a ≠ 0 := by
        rw [List.getD_eq_getElem _ _ hilt]
        exact hvis _ (List.getElem_mem hilt)
      rw [compositePixel, if_neg hpa]
      rfl
    rw [List.map_congr_left hmap]
    have hwh : h * w = frame.length := by rw [hlen]; ring
    rw [hwh, map_getD_range]

/-- C5 witness: the amended compositor rules evaluated on concrete
pixels: a transparent overlay over an opaque pixel, an opaque overlay
over a transparent pixel, and the blend formula for a half-transparent
overlay over an opaque base. -/
theorem c5_composite_rules_witness :
    compositePixel ⟨1, 2, 3, 4⟩ ⟨9, 9, 9, 0⟩ = ⟨1, 2, 3, 4⟩ ∧
    compositePixel ⟨0, 0, 0, 0⟩ ⟨9, 9, 9, 4⟩ = ⟨9, 9, 9, 4⟩ ∧
    (compositePixel ⟨100, 150, 200, 255⟩ ⟨10, 20, 30, 51⟩).r =
      (jsRound ((((10 : ℕ) : ℚ) * (((51 : ℕ) : ℚ) / 255) +
        ((100 : ℕ) : ℚ) * (((255 : ℕ) : ℚ) / 255) * (1 - ((51 : ℕ) : ℚ) / 255)) /
        (((51 : ℕ) : ℚ) / 255 +
          ((255 : ℕ) : ℚ) / 255 * (1 - ((51 : ℕ) : ℚ) / 255)))).toNat :=
  ⟨c5_composite_rules.1 ⟨1, 2, 3, 4⟩ ⟨9, 9, 9, 0⟩ rfl,
   c5_composite_rules.2.1 ⟨0, 0, 0, 0⟩ ⟨9, 9, 9, 4⟩ rfl (by decide),
   (c5_composite_rules.2.2.1 ⟨100, 150, 200, 255⟩ ⟨10, 20, 30, 51⟩
     (by decide) (by decide) (by decide) (by decide) (by decide) (by decide)
     (by decide) (by decide) (by decide) (by decide)).1⟩

end ApePunks
